import Mathlib

/-!
Verification of the landing-resolution and curvature-correction engine of
`Physics_Model/Physics_Model_v6.py` (class `golf_ballstics`), shallowly
embedded over an arbitrary linear ordered field `K` standing for the real
numbers computed with by the Python code.

The ODE integration (`initiate_hit` / `simulate` / `odeint`) is abstracted
as a function `sim : K → List (Sample K)` mapping an end-time horizon to
the sampled trajectory, because the retry loop in `get_landingpos` re-runs
the integrator with identical shot arguments and only a changed
`self.endtime`.  The transcendental primitives the Python code takes from
numpy (`np.pi`, `np.tan`, `np.sin`, and the float power `**`) are supplied
as an explicit parameter record `RealFns`, so every definition stays
computable and theorems hold for the real-number reading by instantiation.

Decimal constants of the source are written as explicit fractions:
`1.09361 = 109361 / 100000`, `1e-6 = 1 / 1000000`, `0.1 = 1 / 10`,
`0.04 = 4 / 100`, `0.2 = 2 / 10`, `0.4 = 4 / 10`, `0.16 = 16 / 100`,
`0.23 = 23 / 100`, `0.33 = 33 / 100`, `-0.0578 = -578 / 10000`,
`0.8388 = 8388 / 10000`, `0.500 = 1 / 2`.
-/

namespace AICaddie

variable {K : Type} [LinearOrderedField K]

/-- One trajectory sample: the position columns `x`, `y`, `z` of
`df_simres` (the resolver reads no other columns). -/
structure Sample (K : Type) where
  x : K
  y : K
  z : K

/-- The instance fields of `golf_ballstics` read by `get_landingpos` and
by the aerodynamic coefficient methods (set in `__init__`/`initiate_hit`,
`Physics_Model_v6.py` lines 16-88). -/
structure GolfState (K : Type) where
  endtime : K
  spin_angle : K
  windspeed : K
  horizontal_launch_angle_deg : K
  radius : K
  rho : K
  mu : K
  Re_crit : K
  C_l2 : K
  C_l4 : K

/-- The transcendental primitives taken from numpy: `np.pi`, `np.tan`,
`np.sin`, and the float power `x ** p` (written `pow x p`). -/
structure RealFns (K : Type) where
  pi : K
  tan : K → K
  sin : K → K
  pow : K → K → K

/-- `self.df_simres['z'].iloc[-1]`: the height of the last sample
(`0` for an empty trajectory, which the integrator never produces). -/
def lastZ (samples : List (Sample K)) : K :=
  ((samples.getLast?).map Sample.z).getD 0

/-- `len(list(groupby(zs, lambda x: x >= 0))) - 1` (line 120): the number
of groups of consecutive heights with equal sign key `z >= 0`, minus one,
i.e. the number of adjacent pairs whose keys differ. -/
def countTransitions : List K → ℕ
  | a :: b :: rest =>
    (if 0 ≤ a ↔ 0 ≤ b then 0 else 1) + countTransitions (b :: rest)
  | _ => 0

/-- The error string set on line 116. -/
def neverLandsMsg : String := "error: ball never lands"

/-- The error string set on line 121. -/
def multiCrossMsg : String := "error: ball passes through the ground multiple times"

/-- The `elif check:` arm of the loop body (lines 119-121): the error
string produced for a landed trajectory. -/
def checkErr (check : Bool) (samples : List (Sample K)) : String :=
  if check then
    if 1 < countTransitions (samples.map Sample.z) then multiCrossMsg else ""
  else ""

/-- Result of the `while cont:` retry loop of `get_landingpos`
(lines 103-124): the error string, the last integrated trajectory, the
(possibly doubled) `self.endtime`, and the final attempt counter `i`. -/
structure LoopOut (K : Type) where
  err : String
  samples : List (Sample K)
  endtime : K
  attempts : ℕ

/-- The `while cont:` loop of `get_landingpos` (lines 107-124), written
as fuel recursion: `fuel` bounds the remaining iterations and is `imax`
at entry, so with `imax = 3` the `fuel = 0` fallback is never reached
before the `i >= imax` stop fires; its body repeats the final-iteration
logic so the function equals the Python loop for every entry state.
Each iteration re-integrates (`sim endtime`), increments `i`, and either
detects `z.iloc[-1] > 0` (line 115: not landed, set the never-lands
error, double `endtime`, continue unless `i >= imax`) or stops with the
`checkErr` diagnostic of the landed trajectory. -/
def landingLoop (sim : K → List (Sample K)) (check : Bool) (imax : ℕ) :
    ℕ → K → ℕ → LoopOut K
  | 0, endtime, i =>
    if 0 < lastZ (sim endtime) then
      ⟨neverLandsMsg, sim endtime, endtime * 2, i + 1⟩
    else
      ⟨checkErr check (sim endtime), sim endtime, endtime, i + 1⟩
  | fuel + 1, endtime, i =>
    if 0 < lastZ (sim endtime) then
      if i + 1 < imax then
        landingLoop sim check imax fuel (endtime * 2) (i + 1)
      else
        ⟨neverLandsMsg, sim endtime, endtime * 2, i + 1⟩
    else
      ⟨checkErr check (sim endtime), sim endtime, endtime, i + 1⟩

/-- `index = np.argmax(df_simres['z'] < 0) - 1` and the bracketing pair
`p1`, `p2` (lines 129-131).  `List.findIdx` is the first index with
negative height, matching `np.argmax` on a boolean array whenever a
`True` entry exists.  The subtraction is ℕ-truncated; it differs from
the Python expression only where the Python indexing would raise
(no negative sample at all, or the very first sample already negative),
situations outside every claim's hypotheses. -/
def crossingBracket (samples : List (Sample K)) : Sample K × Sample K :=
  let index := (samples.findIdx fun s => decide (s.z < 0)) - 1
  (samples.getD index ⟨0, 0, 0⟩, samples.getD (index + 1) ⟨0, 0, 0⟩)

/-- Linear interpolation of the ground crossing (lines 132-134):
`t = z1/(z1-z2)`, `x = x1 + t*(x2-x1)`, `y = y1 + t*(y2-y1)`. -/
def interpLanding (samples : List (Sample K)) : K × K :=
  let p := crossingBracket samples
  let t := p.1.z / (p.1.z - p.2.z)
  (p.1.x + t * (p.2.x - p.1.x), p.1.y + t * (p.2.y - p.1.y))

/-- The curvature-correction post-process (lines 136-154): convert to
yards, compute the straight-line lateral position `y_yd * tan(psi)`, the
raw curvature, then either force the straight line (zero spin axis and
zero wind, line 144) or scale the curvature by
`max(0.1, min(a * |curvature_yd| ** p + b, 2.0))`, and convert the
adjusted lateral coordinate back to meters. -/
def curvature_correct (F : RealFns K) (st : GolfState K) (a b p : K)
    (x y : K) : K :=
  let y_yd := y * (109361 / 100000)
  let x_yd := x * (109361 / 100000)
  let psi := st.horizontal_launch_angle_deg * F.pi / 180
  let x_straight_yd := y_yd * F.tan psi
  let curvature_yd := x_yd - x_straight_yd
  let x_adjusted_yd :=
    if |st.spin_angle| < 1 / 1000000 ∧ |st.windspeed| < 1 / 1000000 then
      x_straight_yd
    else
      x_straight_yd +
        curvature_yd * max (1 / 10) (min (a * F.pow |curvature_yd| p + b) 2)
  x_adjusted_yd / (109361 / 100000)

/-- `get_landingpos(check, curvature_scale_params=(a, b, p))` of
`Physics_Model_v6.py` (lines 90-160).  The result is
`((x_adjusted, y, err), final state)`; the Python method returns the
error string only when `check` is true and always restores
`self.endtime` to its pre-call value (lines 106 and 126), modelled here
by the state pair `stLoop`/`stFinal`. -/
def get_landingpos (F : RealFns K) (st : GolfState K)
    (sim : K → List (Sample K)) (check : Bool) (a b p : K) :
    (K × K × String) × GolfState K :=
  let default_endtime := st.endtime
  let out := landingLoop sim check 3 3 st.endtime 0
  let stLoop : GolfState K := { st with endtime := out.endtime }
  let stFinal : GolfState K := { stLoop with endtime := default_endtime }
  if out.err = "" then
    ((curvature_correct F st a b p (interpLanding out.samples).1
        (interpLanding out.samples).2,
      (interpLanding out.samples).2, out.err), stFinal)
  else
    ((0, 0, out.err), stFinal)

/-- The `sn_Cl` breakpoint table (line 54):
`[[0, 0.04, 0.1, 0.2, 0.4], [0, 0.1, 0.16, 0.23, 0.33]]`. -/
def sn_Cl (R : Type) [LinearOrderedField R] : List R × List R :=
  ([0, 4 / 100, 1 / 10, 2 / 10, 4 / 10],
   [0, 1 / 10, 16 / 100, 23 / 100, 33 / 100])

/-- Piecewise-linear interpolation over paired breakpoints with constant
extrapolation at both ends, the semantics of `np.interp` for a strictly
increasing breakpoint list. -/
def interpPts : List (K × K) → K → K
  | [], _ => 0
  | [(_, f1)], _ => f1
  | (x1, f1) :: (x2, f2) :: rest, x =>
    if x ≤ x1 then f1
    else if x ≤ x2 then f1 + (x - x1) * (f2 - f1) / (x2 - x1)
    else interpPts ((x2, f2) :: rest) x

/-- `np.interp(x=sn, xp=..., fp=...)` (line 183). -/
def np_interp (x : K) (xp fp : List K) : K :=
  interpPts (xp.zip fp) x

/-- `effective_spin` (lines 167-169): `sn = omega * 2 * np.pi * r / v`. -/
def effective_spin (F : RealFns K) (st : GolfState K) (v omega : K) : K :=
  omega * 2 * F.pi * st.radius / v

/-- `reynolds_number` (lines 171-173): `rho * v * D / mu` with
`D = 2 * radius`. -/
def reynolds_number (st : GolfState K) (v : K) : K :=
  st.rho * v * (2 * st.radius) / st.mu

/-- `Cl` (lines 181-186): table lookup of the base lift coefficient at
the effective spin, then the Reynolds and spin-axis adjustments. -/
def Cl (F : RealFns K) (st : GolfState K) (v omega : K) : K :=
  let sn := effective_spin F st v omega
  let cl := np_interp sn (sn_Cl K).1 (sn_Cl K).2
  let Re := reynolds_number st v
  cl * (1 + st.C_l2 * (Re / st.Re_crit)) * (1 + st.C_l4 * F.sin st.spin_angle ^ 2)

/-! Concrete rational fixtures used by the witnesses and counterexamples. -/

/-- Concrete transcendental record over ℚ for witnesses. -/
def FQ : RealFns ℚ where
  pi := 3
  tan := fun u => u
  sin := fun u => u
  pow := fun u _ => u

/-- A state with zero spin-axis angle and zero wind. -/
def stStraight : GolfState ℚ where
  endtime := 10
  spin_angle := 0
  windspeed := 0
  horizontal_launch_angle_deg := 0
  radius := 1
  rho := 1
  mu := 1
  Re_crit := 1
  C_l2 := 0
  C_l4 := 1

/-- A state with a plainly nonzero spin-axis angle. -/
def stCurve : GolfState ℚ :=
  { stStraight with spin_angle := 1 }

/-- Default `curvature_scale_params` of line 90, first component. -/
def qa : ℚ := -578 / 10000

/-- Default `curvature_scale_params` of line 90, second component. -/
def qb : ℚ := 8388 / 10000

/-- Default `curvature_scale_params` of line 90, third component. -/
def qp : ℚ := 1 / 2

/-- A landed two-sample trajectory crossing the ground once. -/
def sampLand : List (Sample ℚ) := [⟨0, 0, 1⟩, ⟨2, 4, -1⟩]

/-- A landed trajectory that crosses the ground three times. -/
def sampMulti : List (Sample ℚ) := [⟨0, 0, 1⟩, ⟨1, 1, -1⟩, ⟨2, 2, 1⟩, ⟨3, 3, -1⟩]

/-- Integrator stub: always returns the single-crossing trajectory. -/
def simLands : ℚ → List (Sample ℚ) := fun _ => sampLand

/-- Integrator stub: the final height is positive for every horizon. -/
def simNever : ℚ → List (Sample ℚ) := fun _ => [⟨0, 0, 1⟩]

/-- Integrator stub: always returns the triple-crossing trajectory. -/
def simMulti : ℚ → List (Sample ℚ) := fun _ => sampMulti

/-- Integrator stub: the final height is exactly zero. -/
def simZero : ℚ → List (Sample ℚ) := fun _ => [⟨0, 0, 0⟩]

/-! Helper lemmas about the retry loop and the branches of
`get_landingpos`. -/

lemma checkErr_ne_neverLands (check : Bool) (samples : List (Sample K)) :
    checkErr check samples ≠ neverLandsMsg := by
  unfold checkErr
  split
  · split
    · decide
    · decide
  · decide

lemma landingLoop_attempts_le (sim : K → List (Sample K)) (check : Bool)
    (imax : ℕ) :
    ∀ (fuel : ℕ) (e : K) (i : ℕ),
      (landingLoop sim check imax fuel e i).attempts ≤ max (i + 1) imax := by
  intro fuel
  induction fuel with
  | zero =>
    intro e i
    unfold landingLoop
    by_cases h : 0 < lastZ (sim e)
    · simp only [if_pos h]
      exact le_max_left _ _
    · simp only [if_neg h]
      exact le_max_left _ _
  | succ f ih =>
    intro e i
    unfold landingLoop
    by_cases h : 0 < lastZ (sim e)
    · simp only [if_pos h]
      by_cases h2 : i + 1 < imax
      · simp only [if_pos h2]
        refine (ih (e * 2) (i + 1)).trans ?_
        have hmax : max (i + 1 + 1) imax = imax := max_eq_right (by omega)
        rw [hmax]
        exact le_max_right _ _
      · simp only [if_neg h2]
        exact le_max_left _ _
    · simp only [if_neg h]
      exact le_max_left _ _

lemma landingLoop_err_iff (sim : K → List (Sample K)) (check : Bool)
    (imax : ℕ) :
    ∀ (fuel : ℕ) (e : K) (i : ℕ),
      ((landingLoop sim check imax fuel e i).err = neverLandsMsg ↔
        0 < lastZ (landingLoop sim check imax fuel e i).samples) := by
  intro fuel
  induction fuel with
  | zero =>
    intro e i
    unfold landingLoop
    by_cases h : 0 < lastZ (sim e)
    · simp only [if_pos h]
      simpa using h
    · simp only [if_neg h]
      exact iff_of_false (checkErr_ne_neverLands check (sim e)) h
  | succ f ih =>
    intro e i
    unfold landingLoop
    by_cases h : 0 < lastZ (sim e)
    · simp only [if_pos h]
      by_cases h2 : i + 1 < imax
      · simp only [if_pos h2]
        exact ih (e * 2) (i + 1)
      · simp only [if_neg h2]
        simpa using h
    · simp only [if_neg h]
      exact iff_of_false (checkErr_ne_neverLands check (sim e)) h

lemma landingLoop_multi (sim : K → List (Sample K)) (imax : ℕ) :
    ∀ (fuel : ℕ) (e : K) (i : ℕ),
      ¬ 0 < lastZ (landingLoop sim true imax fuel e i).samples →
      1 < countTransitions
          (((landingLoop sim true imax fuel e i).samples).map Sample.z) →
      (landingLoop sim true imax fuel e i).err = multiCrossMsg := by
  intro fuel
  induction fuel with
  | zero =>
    intro e i
    unfold landingLoop
    by_cases h : 0 < lastZ (sim e)
    · simp only [if_pos h]
      intro hn _
      exact absurd h hn
    · simp only [if_neg h]
      intro _ hm
      simp [checkErr, hm]
  | succ f ih =>
    intro e i
    unfold landingLoop
    by_cases h : 0 < lastZ (sim e)
    · simp only [if_pos h]
      by_cases h2 : i + 1 < imax
      · simp only [if_pos h2]
        exact ih (e * 2) (i + 1)
      · simp only [if_neg h2]
        intro hn _
        exact absurd h hn
    · simp only [if_neg h]
      intro _ hm
      simp [checkErr, hm]

lemma get_landingpos_of_err (F : RealFns K) (st : GolfState K)
    (sim : K → List (Sample K)) (check : Bool) (a b p : K)
    (h : (landingLoop sim check 3 3 st.endtime 0).err ≠ "") :
    (get_landingpos F st sim check a b p).1 =
      (0, 0, (landingLoop sim check 3 3 st.endtime 0).err) := by
  simp [get_landingpos, h]

lemma get_landingpos_landed (F : RealFns K) (st : GolfState K)
    (sim : K → List (Sample K)) (check : Bool) (a b p : K)
    (h : (landingLoop sim check 3 3 st.endtime 0).err = "") :
    (get_landingpos F st sim check a b p).1 =
      (curvature_correct F st a b p
          (interpLanding (landingLoop sim check 3 3 st.endtime 0).samples).1
          (interpLanding (landingLoop sim check 3 3 st.endtime 0).samples).2,
        (interpLanding (landingLoop sim check 3 3 st.endtime 0).samples).2,
        "") := by
  simp [get_landingpos, h]

/-- Claim C1: every invocation of `get_landingpos` performs at most 3
integration attempts (the initial attempt plus at most two
horizon-doubling retries), and if the trajectory returned by the final
attempt still has not landed, the call reports the never-lands status
and returns the degenerate landing point (0, 0). -/
theorem claim_C1 (F : RealFns K) (st : GolfState K)
    (sim : K → List (Sample K)) (check : Bool) (a b p : K) :
    (landingLoop sim check 3 3 st.endtime 0).attempts ≤ 3 ∧
      (0 < lastZ (landingLoop sim check 3 3 st.endtime 0).samples →
        (get_landingpos F st sim check a b p).1 = (0, 0, neverLandsMsg)) := by
  constructor
  · refine (landingLoop_attempts_le sim check 3 3 st.endtime 0).trans ?_
    exact le_of_eq (max_eq_right (by norm_num))
  · intro h
    have he : (landingLoop sim check 3 3 st.endtime 0).err = neverLandsMsg :=
      (landingLoop_err_iff sim check 3 3 st.endtime 0).mpr h
    have hne : (landingLoop sim check 3 3 st.endtime 0).err ≠ "" := by
      rw [he]; decide
    rw [get_landingpos_of_err F st sim check a b p hne, he]

/-- Claim C1 witness: a trajectory whose final height stays positive for
every horizon makes `get_landingpos` report the never-lands error with
landing point (0, 0) after its bounded retries. -/
theorem claim_C1_witness :
    0 < lastZ (landingLoop simNever false 3 3 stStraight.endtime 0).samples ∧
      (get_landingpos FQ stStraight simNever false qa qb qp).1 =
        (0, 0, neverLandsMsg) := by
  have h : 0 < lastZ (landingLoop simNever false 3 3 stStraight.endtime 0).samples := by
    decide
  exact ⟨h, (claim_C1 FQ stStraight simNever false qa qb qp).2 h⟩

/-- Claim C2 counterexample: with `check = true` and a trajectory that
crosses the ground three times, `get_landingpos` returns the degenerate
point (0, 0) together with the multiple-crossings error, even though the
linearly interpolated landing point of the crossing-resolution step is
(1/2, 1/2) ≠ (0, 0); the claim that the interpolated point is still
returned is therefore false on the code. -/
theorem claim_C2_counterexample :
    (get_landingpos FQ stCurve simMulti true qa qb qp).1 =
        (0, 0, multiCrossMsg) ∧
      interpLanding (simMulti 10) ≠ ((0 : ℚ), 0) := by
  constructor
  · decide
  · norm_num [interpLanding, crossingBracket, simMulti, sampMulti,
      List.findIdx_cons, Prod.ext_iff]

/-- Claim C2 amended: when the consistency check is requested and the
landed trajectory contains more than one height sign transition,
`get_landingpos` reports the multiple-crossings condition as its status
flag but returns the degenerate landing point (0, 0) in place of the
interpolated crossing (the error is fatal for the coordinates, exactly
as for the never-lands error). -/
theorem claim_C2_amended (F : RealFns K) (st : GolfState K)
    (sim : K → List (Sample K)) (a b p : K)
    (hland : ¬ 0 < lastZ (landingLoop sim true 3 3 st.endtime 0).samples)
    (hmulti : 1 < countTransitions
        (((landingLoop sim true 3 3 st.endtime 0).samples).map Sample.z)) :
    (get_landingpos F st sim true a b p).1 = (0, 0, multiCrossMsg) := by
  have he := landingLoop_multi sim 3 3 st.endtime 0 hland hmulti
  have hne : (landingLoop sim true 3 3 st.endtime 0).err ≠ "" := by
    rw [he]; decide
  rw [get_landingpos_of_err F st sim true a b p hne, he]

/-- Claim C2 amended witness: the triple-crossing trajectory makes the
checked call return (0, 0) with the multiple-crossings flag. -/
theorem claim_C2_witness :
    ¬ 0 < lastZ (landingLoop simMulti true 3 3 stCurve.endtime 0).samples ∧
      1 < countTransitions
          (((landingLoop simMulti true 3 3 stCurve.endtime 0).samples).map
            Sample.z) ∧
      (get_landingpos FQ stCurve simMulti true qa qb qp).1 =
        (0, 0, multiCrossMsg) := by
  have h1 : ¬ 0 < lastZ (landingLoop simMulti true 3 3 stCurve.endtime 0).samples := by
    decide
  have h2 : 1 < countTransitions
      (((landingLoop simMulti true 3 3 stCurve.endtime 0).samples).map
        Sample.z) := by
    decide
  exact ⟨h1, h2, claim_C2_amended FQ stCurve simMulti qa qb qp h1 h2⟩

/-- Claim C3 counterexample: the not-landed test of the loop is the
strict `z.iloc[-1] > 0` (line 115), not `≥ 0`: a trajectory whose final
sampled height is exactly 0 takes the landed branch on the first
attempt — no horizon doubling, no retry, no never-lands error — so the
claim that the condition triggers exactly when the final height is ≥ 0
is false on the code. -/
theorem claim_C3_counterexample :
    0 ≤ lastZ (simZero 10) ∧
      (landingLoop simZero false 3 3 (10 : ℚ) 0).err ≠ neverLandsMsg ∧
      (landingLoop simZero false 3 3 (10 : ℚ) 0).attempts = 1 ∧
      (landingLoop simZero false 3 3 (10 : ℚ) 0).endtime = 10 := by
  decide

/-- Claim C3 amended: for every integration attempt inside
`get_landingpos`, the not-landed condition (which doubles the end time,
re-integrates, and ultimately yields the never-lands status) is
triggered exactly when the final sample's height is strictly positive;
a trajectory whose final sample height is exactly 0 is treated as
landed within the horizon (single attempt, horizon unchanged). -/
theorem claim_C3_amended (sim : K → List (Sample K)) (check : Bool) (e : K) :
    ((landingLoop sim check 3 3 e 0).err = neverLandsMsg ↔
        0 < lastZ (landingLoop sim check 3 3 e 0).samples) ∧
      (lastZ (sim e) = 0 →
        (landingLoop sim check 3 3 e 0).attempts = 1 ∧
          (landingLoop sim check 3 3 e 0).endtime = e) := by
  constructor
  · exact landingLoop_err_iff sim check 3 3 e 0
  · intro h
    have hn : ¬ 0 < lastZ (sim e) := by
      rw [h]
      exact lt_irrefl 0
    constructor
    · simp [landingLoop, hn]
    · simp [landingLoop, hn]

/-- Claim C3 amended witness: a final height of exactly 0 stops the loop
after one attempt with the horizon unchanged. -/
theorem claim_C3_witness :
    lastZ (simZero (10 : ℚ)) = 0 ∧
      (landingLoop simZero false 3 3 (10 : ℚ) 0).attempts = 1 ∧
        (landingLoop simZero false 3 3 (10 : ℚ) 0).endtime = 10 := by
  have h : lastZ (simZero (10 : ℚ)) = 0 := by decide
  exact ⟨h, (claim_C3_amended simZero false 10).2 h⟩

/-! Helper lemmas for the crossing scan and the bracketing pair. -/

lemma findIdx_first_neg :
    ∀ (l : List (Sample K)) (j : ℕ), j + 1 < l.length →
      (∀ k, k ≤ j → 0 ≤ (l.getD k ⟨0, 0, 0⟩).z) →
      (l.getD (j + 1) ⟨0, 0, 0⟩).z < 0 →
      (l.findIdx fun s => decide (s.z < 0)) = j + 1 := by
  intro l j
  induction j generalizing l with
  | zero =>
    intro hlen hpos hneg
    cases l with
    | nil => simp at hlen
    | cons a t =>
      cases t with
      | nil => simp at hlen
      | cons b t2 =>
        have ha : 0 ≤ a.z := by simpa using hpos 0 (le_refl 0)
        have hb : b.z < 0 := by simpa using hneg
        rw [List.findIdx_cons]
        rw [decide_eq_false (not_lt.mpr ha)]
        rw [List.findIdx_cons]
        rw [decide_eq_true hb]
        rfl
  | succ j ih =>
    intro hlen hpos hneg
    cases l with
    | nil => simp at hlen
    | cons a t =>
      have ha : 0 ≤ a.z := by simpa using hpos 0 (Nat.zero_le _)
      rw [List.findIdx_cons]
      rw [decide_eq_false (not_lt.mpr ha)]
      have ht : (t.findIdx fun s => decide (s.z < 0)) = j + 1 := by
        apply ih t
        · have : j + 1 + 1 < t.length + 1 := by simpa using hlen
          omega
        · intro k hk
          simpa using hpos (k + 1) (by omega)
        · simpa using hneg
      simp [ht]

lemma crossingBracket_eq (l : List (Sample K)) (j : ℕ)
    (hlen : j + 1 < l.length)
    (hpos : ∀ k, k ≤ j → 0 ≤ (l.getD k ⟨0, 0, 0⟩).z)
    (hneg : (l.getD (j + 1) ⟨0, 0, 0⟩).z < 0) :
    crossingBracket l = (l.getD j ⟨0, 0, 0⟩, l.getD (j + 1) ⟨0, 0, 0⟩) := by
  unfold crossingBracket
  rw [findIdx_first_neg l j hlen hpos hneg]
  simp

/-- Claim C4: when the trajectory lands within the horizon, the raw
landing point is found by scanning for the first index `j + 1` at which
the sampled height turns negative (all earlier heights being ≥ 0) and
linearly interpolating between the bracketing samples `p1` and `p2` with
`t = z1/(z1-z2)`, `x = x1 + t*(x2-x1)`, `y = y1 + t*(y2-y1)`. -/
theorem claim_C4 (samples : List (Sample K)) (j : ℕ)
    (hlen : j + 1 < samples.length)
    (hpos : ∀ k, k ≤ j → 0 ≤ (samples.getD k ⟨0, 0, 0⟩).z)
    (hneg : (samples.getD (j + 1) ⟨0, 0, 0⟩).z < 0) :
    (samples.findIdx fun s => decide (s.z < 0)) = j + 1 ∧
      interpLanding samples =
        (let p1 := samples.getD j ⟨0, 0, 0⟩
         let p2 := samples.getD (j + 1) ⟨0, 0, 0⟩
         let t := p1.z / (p1.z - p2.z)
         (p1.x + t * (p2.x - p1.x), p1.y + t * (p2.y - p1.y))) := by
  refine ⟨findIdx_first_neg samples j hlen hpos hneg, ?_⟩
  unfold interpLanding
  rw [crossingBracket_eq samples j hlen hpos hneg]

/-- Claim C4 witness: on the concrete two-sample crossing the scan finds
index 1 and the interpolated landing point is (1, 2). -/
theorem claim_C4_witness :
    0 ≤ (sampLand.getD 0 ⟨0, 0, 0⟩).z ∧ (sampLand.getD 1 ⟨0, 0, 0⟩).z < 0 ∧
      interpLanding sampLand = (1, 2) := by
  refine ⟨by decide, by decide, ?_⟩
  have h := (claim_C4 sampLand 0 (by decide)
      (fun k hk => by rcases Nat.le_zero.mp hk with rfl; decide) (by decide)).2
  rw [h]
  norm_num [sampLand]

/-- Claim C5: for every bracketing pair actually used by the landing
interpolation (first height ≥ 0, second < 0), the divisor `z1 - z2` is
strictly positive and hence nonzero, so `t = z1/(z1-z2)` never divides
by zero. -/
theorem claim_C5 (samples : List (Sample K)) (j : ℕ)
    (hlen : j + 1 < samples.length)
    (hpos : ∀ k, k ≤ j → 0 ≤ (samples.getD k ⟨0, 0, 0⟩).z)
    (hneg : (samples.getD (j + 1) ⟨0, 0, 0⟩).z < 0) :
    0 < (crossingBracket samples).1.z - (crossingBracket samples).2.z ∧
      (crossingBracket samples).1.z - (crossingBracket samples).2.z ≠ 0 := by
  have h1 : 0 ≤ (samples.getD j ⟨0, 0, 0⟩).z := hpos j (le_refl j)
  have hgt : 0 < (samples.getD j ⟨0, 0, 0⟩).z -
      (samples.getD (j + 1) ⟨0, 0, 0⟩).z := by linarith
  rw [crossingBracket_eq samples j hlen hpos hneg]
  exact ⟨hgt, ne_of_gt hgt⟩

/-- Claim C5 witness: the concrete bracketing pair has divisor 2 ≠ 0. -/
theorem claim_C5_witness :
    0 ≤ (sampLand.getD 0 ⟨0, 0, 0⟩).z ∧ (sampLand.getD 1 ⟨0, 0, 0⟩).z < 0 ∧
      (crossingBracket sampLand).1.z - (crossingBracket sampLand).2.z ≠ 0 :=
  ⟨by decide, by decide,
    (claim_C5 sampLand 0 (by decide)
      (fun k hk => by rcases Nat.le_zero.mp hk with rfl; decide) (by decide)).2⟩

/-! Helper lemmas for the curvature-correction post-process. -/

lemma corr_algebra_override (c T y : K) (hc : c ≠ 0) :
    y * c * T / c = y * T := by
  field_simp
  ring

lemma corr_algebra_scale (c T S x y : K) (hc : c ≠ 0) :
    (y * c * T + (x * c - y * c * T) * S) / c - y * T = (x - y * T) * S := by
  field_simp
  ring

lemma curvature_correct_override (F : RealFns K) (st : GolfState K)
    (a b p x y : K)
    (hsp : |st.spin_angle| < 1 / 1000000)
    (hw : |st.windspeed| < 1 / 1000000) :
    curvature_correct F st a b p x y =
      y * F.tan (st.horizontal_launch_angle_deg * F.pi / 180) := by
  simp only [curvature_correct, if_pos (And.intro hsp hw)]
  exact corr_algebra_override (109361 / 100000)
    (F.tan (st.horizontal_launch_angle_deg * F.pi / 180)) y (by norm_num)

lemma curvature_correct_scaled (F : RealFns K) (st : GolfState K)
    (a b p x y : K)
    (hno : ¬(|st.spin_angle| < 1 / 1000000 ∧ |st.windspeed| < 1 / 1000000)) :
    curvature_correct F st a b p x y =
      (y * (109361 / 100000) * F.tan (st.horizontal_launch_angle_deg * F.pi / 180) +
        (x * (109361 / 100000) -
            y * (109361 / 100000) *
              F.tan (st.horizontal_launch_angle_deg * F.pi / 180)) *
          max (1 / 10)
            (min (a * F.pow
                |x * (109361 / 100000) -
                  y * (109361 / 100000) *
                    F.tan (st.horizontal_launch_angle_deg * F.pi / 180)| p + b) 2)) /
        (109361 / 100000) := by
  simp only [curvature_correct, if_neg hno]

lemma curvature_correct_dev (F : RealFns K) (st : GolfState K)
    (a b p x y : K)
    (hno : ¬(|st.spin_angle| < 1 / 1000000 ∧ |st.windspeed| < 1 / 1000000)) :
    curvature_correct F st a b p x y -
        y * F.tan (st.horizontal_launch_angle_deg * F.pi / 180) =
      (x - y * F.tan (st.horizontal_launch_angle_deg * F.pi / 180)) *
        max (1 / 10)
          (min (a * F.pow
              |x * (109361 / 100000) -
                y * (109361 / 100000) *
                  F.tan (st.horizontal_launch_angle_deg * F.pi / 180)| p + b) 2) := by
  rw [curvature_correct_scaled F st a b p x y hno]
  exact corr_algebra_scale (109361 / 100000)
    (F.tan (st.horizontal_launch_angle_deg * F.pi / 180)) _ x y (by norm_num)

lemma scaled_dev_bounds (r S : K) (h1 : 1 / 10 ≤ S) (h2 : S ≤ 2) :
    (0 < r → 0 < r * S) ∧ (r < 0 → r * S < 0) ∧ (r = 0 → r * S = 0) ∧
      1 / 10 * |r| ≤ |r * S| ∧ |r * S| ≤ 2 * |r| := by
  have h0 : 0 < S := lt_of_lt_of_le (by norm_num) h1
  refine ⟨fun h => mul_pos h h0, fun h => mul_neg_of_neg_of_pos h h0,
    fun h => by rw [h, zero_mul], ?_, ?_⟩
  · rw [abs_mul, abs_of_pos h0]
    nlinarith [abs_nonneg r]
  · rw [abs_mul, abs_of_pos h0]
    nlinarith [abs_nonneg r]

/-- Claim C6: when the spin-axis angle and the wind speed are both
within 1e-6 of zero and the trajectory landed, the corrected lateral
landing coordinate returned by `get_landingpos` equals the straight-line
value `y * tan(psi)` exactly, for every trajectory (hence for all launch
speeds, vertical launch angles, and spin rates). -/
theorem claim_C6 (F : RealFns K) (st : GolfState K)
    (sim : K → List (Sample K)) (check : Bool) (a b p : K)
    (hspin : |st.spin_angle| < 1 / 1000000)
    (hwind : |st.windspeed| < 1 / 1000000)
    (hland : (landingLoop sim check 3 3 st.endtime 0).err = "") :
    (get_landingpos F st sim check a b p).1.1 =
      (get_landingpos F st sim check a b p).1.2.1 *
        F.tan (st.horizontal_launch_angle_deg * F.pi / 180) := by
  rw [get_landingpos_landed F st sim check a b p hland]
  exact curvature_correct_override F st a b p _ _ hspin hwind

/-- Claim C6 witness: the zero-spin-axis, zero-wind state lands and the
returned lateral coordinate is the straight-line value. -/
theorem claim_C6_witness :
    |stStraight.spin_angle| < 1 / 1000000 ∧
      |stStraight.windspeed| < 1 / 1000000 ∧
      (landingLoop simLands false 3 3 stStraight.endtime 0).err = "" ∧
      (get_landingpos FQ stStraight simLands false qa qb qp).1.1 =
        (get_landingpos FQ stStraight simLands false qa qb qp).1.2.1 *
          FQ.tan (stStraight.horizontal_launch_angle_deg * FQ.pi / 180) := by
  have h1 : |stStraight.spin_angle| < 1 / 1000000 := by
    norm_num [stStraight]
  have h2 : |stStraight.windspeed| < 1 / 1000000 := by
    norm_num [stStraight]
  have h3 : (landingLoop simLands false 3 3 stStraight.endtime 0).err = "" := by
    decide
  exact ⟨h1, h2, h3,
    claim_C6 FQ stStraight simLands false qa qb qp h1 h2 h3⟩

/-- Claim C7: for every landed shot that does not trigger the
zero-curvature override, the corrected lateral coordinate equals
`x_straight_yd + curvature_yd * scale` converted back to meters, with
`curvature_yd = x_yd - x_straight_yd`, `x_straight_yd = y_yd * tan(psi)`
and `scale = clamp(a * |curvature_yd| ** p + b, 0.1, 2.0)`; the scale
factor always lies in the closed interval [0.1, 2.0]. -/
theorem claim_C7 (F : RealFns K) (st : GolfState K)
    (sim : K → List (Sample K)) (check : Bool) (a b p : K)
    (hno : ¬(|st.spin_angle| < 1 / 1000000 ∧ |st.windspeed| < 1 / 1000000))
    (hland : (landingLoop sim check 3 3 st.endtime 0).err = "") :
    let xy := interpLanding (landingLoop sim check 3 3 st.endtime 0).samples
    let x_straight_yd := xy.2 * (109361 / 100000) *
      F.tan (st.horizontal_launch_angle_deg * F.pi / 180)
    let curvature_yd := xy.1 * (109361 / 100000) - x_straight_yd
    let scale := max (1 / 10) (min (a * F.pow |curvature_yd| p + b) 2)
    1 / 10 ≤ scale ∧ scale ≤ 2 ∧
      (get_landingpos F st sim check a b p).1.1 =
        (x_straight_yd + curvature_yd * scale) / (109361 / 100000) := by
  refine ⟨le_max_left _ _, max_le (by norm_num) (min_le_right _ _), ?_⟩
  rw [get_landingpos_landed F st sim check a b p hland]
  exact curvature_correct_scaled F st a b p _ _ hno

/-- Claim C7 witness: the nonzero-spin-axis state lands and the returned
coordinate satisfies the scaled-curvature formula with bounded scale. -/
theorem claim_C7_witness :
    ¬(|stCurve.spin_angle| < 1 / 1000000 ∧ |stCurve.windspeed| < 1 / 1000000) ∧
      (landingLoop simLands false 3 3 stCurve.endtime 0).err = "" ∧
      (let xy := interpLanding (landingLoop simLands false 3 3 stCurve.endtime 0).samples
       let x_straight_yd := xy.2 * (109361 / 100000) *
         FQ.tan (stCurve.horizontal_launch_angle_deg * FQ.pi / 180)
       let curvature_yd := xy.1 * (109361 / 100000) - x_straight_yd
       let scale := max (1 / 10) (min (qa * FQ.pow |curvature_yd| qp + qb) 2)
       1 / 10 ≤ scale ∧ scale ≤ 2 ∧
         (get_landingpos FQ stCurve simLands false qa qb qp).1.1 =
           (x_straight_yd + curvature_yd * scale) / (109361 / 100000)) := by
  have hno : ¬(|stCurve.spin_angle| < 1 / 1000000 ∧
      |stCurve.windspeed| < 1 / 1000000) := by
    norm_num [stCurve, stStraight]
  have hland : (landingLoop simLands false 3 3 stCurve.endtime 0).err = "" := by
    decide
  exact ⟨hno, hland, claim_C7 FQ stCurve simLands false qa qb qp hno hland⟩

/-- Claim C10: for every landed shot not triggering the zero-curvature
override, the corrected lateral deviation from the straight-line path
has the same sign as the raw deviation and its magnitude lies between
0.1 and 2.0 times the raw magnitude: the correction never flips the
landing side and never crosses the straight-line path. -/
theorem claim_C10 (F : RealFns K) (st : GolfState K)
    (sim : K → List (Sample K)) (check : Bool) (a b p : K)
    (hno : ¬(|st.spin_angle| < 1 / 1000000 ∧ |st.windspeed| < 1 / 1000000))
    (hland : (landingLoop sim check 3 3 st.endtime 0).err = "") :
    let xy := interpLanding (landingLoop sim check 3 3 st.endtime 0).samples
    let x_straight := xy.2 * F.tan (st.horizontal_launch_angle_deg * F.pi / 180)
    let raw := xy.1 - x_straight
    let dev := (get_landingpos F st sim check a b p).1.1 - x_straight
    (0 < raw → 0 < dev) ∧ (raw < 0 → dev < 0) ∧ (raw = 0 → dev = 0) ∧
      1 / 10 * |raw| ≤ |dev| ∧ |dev| ≤ 2 * |raw| := by
  have hdev : (get_landingpos F st sim check a b p).1.1 -
      (interpLanding (landingLoop sim check 3 3 st.endtime 0).samples).2 *
        F.tan (st.horizontal_launch_angle_deg * F.pi / 180) =
      ((interpLanding (landingLoop sim check 3 3 st.endtime 0).samples).1 -
          (interpLanding (landingLoop sim check 3 3 st.endtime 0).samples).2 *
            F.tan (st.horizontal_launch_angle_deg * F.pi / 180)) *
        max (1 / 10)
          (min (a * F.pow
              |(interpLanding (landingLoop sim check 3 3 st.endtime 0).samples).1 *
                  (109361 / 100000) -
                (interpLanding (landingLoop sim check 3 3 st.endtime 0).samples).2 *
                  (109361 / 100000) *
                  F.tan (st.horizontal_launch_angle_deg * F.pi / 180)| p + b) 2) := by
    rw [get_landingpos_landed F st sim check a b p hland]
    exact curvature_correct_dev F st a b p _ _ hno
  have hb := scaled_dev_bounds
      ((interpLanding (landingLoop sim check 3 3 st.endtime 0).samples).1 -
        (interpLanding (landingLoop sim check 3 3 st.endtime 0).samples).2 *
          F.tan (st.horizontal_launch_angle_deg * F.pi / 180))
      (max (1 / 10)
        (min (a * F.pow
            |(interpLanding (landingLoop sim check 3 3 st.endtime 0).samples).1 *
                (109361 / 100000) -
              (interpLanding (landingLoop sim check 3 3 st.endtime 0).samples).2 *
                (109361 / 100000) *
                F.tan (st.horizontal_launch_angle_deg * F.pi / 180)| p + b) 2))
      (le_max_left _ _) (max_le (by norm_num) (min_le_right _ _))
  refine ⟨fun h => ?_, fun h => ?_, fun h => ?_, ?_, ?_⟩
  · rw [hdev]
    exact hb.1 h
  · rw [hdev]
    exact hb.2.1 h
  · rw [hdev]
    exact hb.2.2.1 h
  · rw [hdev]
    exact hb.2.2.2.1
  · rw [hdev]
    exact hb.2.2.2.2

/-- Claim C10 witness: on the concrete curved shot the deviation bounds
given by the clamped scale hold. -/
theorem claim_C10_witness :
    ¬(|stCurve.spin_angle| < 1 / 1000000 ∧ |stCurve.windspeed| < 1 / 1000000) ∧
      (landingLoop simLands false 3 3 stCurve.endtime 0).err = "" ∧
      (let xy := interpLanding (landingLoop simLands false 3 3 stCurve.endtime 0).samples
       let x_straight := xy.2 * FQ.tan (stCurve.horizontal_launch_angle_deg * FQ.pi / 180)
       let raw := xy.1 - x_straight
       let dev := (get_landingpos FQ stCurve simLands false qa qb qp).1.1 - x_straight
       (0 < raw → 0 < dev) ∧ (raw < 0 → dev < 0) ∧ (raw = 0 → dev = 0) ∧
         1 / 10 * |raw| ≤ |dev| ∧ |dev| ≤ 2 * |raw|) := by
  have hno : ¬(|stCurve.spin_angle| < 1 / 1000000 ∧
      |stCurve.windspeed| < 1 / 1000000) := by
    norm_num [stCurve, stStraight]
  have hland : (landingLoop simLands false 3 3 stCurve.endtime 0).err = "" := by
    decide
  exact ⟨hno, hland, claim_C10 FQ stCurve simLands false qa qb qp hno hland⟩

/-! Helper lemmas for the lift-coefficient table lookup. -/

lemma np_interp_low (s : K) (hs : s ≤ 0) :
    np_interp s (sn_Cl K).1 (sn_Cl K).2 = 0 := by
  show interpPts
    ([(0, 0), (4 / 100, 1 / 10), (1 / 10, 16 / 100), (2 / 10, 23 / 100),
      (4 / 10, 33 / 100)] : List (K × K)) s = 0
  simp only [interpPts]
  rw [if_pos hs]

lemma np_interp_high (s : K) (hs : 4 / 10 ≤ s) :
    np_interp s (sn_Cl K).1 (sn_Cl K).2 = 33 / 100 := by
  have h0 : ¬ s ≤ 0 := not_le.mpr (lt_of_lt_of_le (by norm_num) hs)
  have h1 : ¬ s ≤ 4 / 100 := not_le.mpr (lt_of_lt_of_le (by norm_num) hs)
  have h2 : ¬ s ≤ 1 / 10 := not_le.mpr (lt_of_lt_of_le (by norm_num) hs)
  have h3 : ¬ s ≤ 2 / 10 := not_le.mpr (lt_of_lt_of_le (by norm_num) hs)
  show interpPts
    ([(0, 0), (4 / 100, 1 / 10), (1 / 10, 16 / 100), (2 / 10, 23 / 100),
      (4 / 10, 33 / 100)] : List (K × K)) s = 33 / 100
  rcases le_or_lt s (4 / 10) with hc | hc
  · have hseq : s = 4 / 10 := le_antisymm hc hs
    subst hseq
    norm_num [interpPts]
  · have h4 : ¬ s ≤ 4 / 10 := not_le.mpr hc
    simp only [interpPts]
    rw [if_neg h0, if_neg h1, if_neg h1, if_neg h2, if_neg h2, if_neg h3,
      if_neg h3, if_neg h4]

/-- Claim C8: for every positive relative air speed `v` and spin rate
`omega`, the lift coefficient equals the piecewise-linear table lookup
at the spin parameter `sn = omega * 2 * pi * r / v`, multiplied by the
Reynolds adjustment `1 + C_l2 * Re / Re_crit` (with
`Re = rho * v * D / mu`, `D = 2r`) and the spin-axis adjustment
`1 + C_l4 * sin(spin_axis)^2`; the table lookup is clamped to the
endpoint values 0 and 0.33 outside the breakpoint domain [0, 0.4]. -/
theorem claim_C8 (F : RealFns K) (st : GolfState K) (v omega : K)
    (hv : 0 < v) :
    Cl F st v omega =
        np_interp (omega * 2 * F.pi * st.radius / v) (sn_Cl K).1 (sn_Cl K).2 *
          (1 + st.C_l2 * (st.rho * v * (2 * st.radius) / st.mu / st.Re_crit)) *
          (1 + st.C_l4 * F.sin st.spin_angle ^ 2) ∧
      (∀ s : K, s ≤ 0 → np_interp s (sn_Cl K).1 (sn_Cl K).2 = 0) ∧
      (∀ s : K, 4 / 10 ≤ s →
        np_interp s (sn_Cl K).1 (sn_Cl K).2 = 33 / 100) :=
  ⟨rfl, fun s hs => np_interp_low s hs, fun s hs => np_interp_high s hs⟩

/-- Claim C8 witness: the lift-coefficient factorization at speed 1 and
spin rate 1. -/
theorem claim_C8_witness :
    (0 : ℚ) < 1 ∧
      Cl FQ stCurve 1 1 =
        np_interp ((1 : ℚ) * 2 * FQ.pi * stCurve.radius / 1)
            (sn_Cl ℚ).1 (sn_Cl ℚ).2 *
          (1 + stCurve.C_l2 *
            (stCurve.rho * 1 * (2 * stCurve.radius) / stCurve.mu /
              stCurve.Re_crit)) *
          (1 + stCurve.C_l4 * FQ.sin stCurve.spin_angle ^ 2) :=
  ⟨by norm_num, (claim_C8 FQ stCurve 1 1 (by norm_num)).1⟩

/-- Claim C9: every call to `get_landingpos` restores the engine's
end-time horizon to its pre-call value before returning, on every path
(landed, multiple-crossings, and never-lands alike). -/
theorem claim_C9 (F : RealFns K) (st : GolfState K)
    (sim : K → List (Sample K)) (check : Bool) (a b p : K) :
    (get_landingpos F st sim check a b p).2.endtime = st.endtime := by
  simp only [get_landingpos]
  split
  · rfl
  · rfl

end AICaddie
